import Mathlib

/-!
# Verification of the USB-IDE process/agent core against its specification

Shallow embedding of the Rust sources (src/codex/mod.rs, src/gui/mod.rs,
src/process/mod.rs) of the USB-IDE repository.  Rust `String`/`&str` values
are modelled as lists of characters (`Str`); Rust byte lengths (`str::len`)
are modelled by the UTF-8 size of the character list, so that byte-length
comparisons in the source are reproduced exactly.  ASCII-only source
constants make the ASCII specialisations of `to_lowercase` and
`char::is_whitespace` faithful on every input the claims touch.
-/

/-- Rust strings are modelled as lists of Unicode scalar values. -/
abbrev Str := List Char

/-- Embed a Lean string literal as a `Str`. -/
def str (s : String) : Str := s.data

/-- UTF-8 byte size of one Unicode scalar value (Rust `char::len_utf8`). -/
def charUtf8Size (c : Char) : Nat :=
  if c.toNat < 0x80 then 1
  else if c.toNat < 0x800 then 2
  else if c.toNat < 0x10000 then 3
  else 4

/-- Rust `str::len`: the UTF-8 byte length of a string. -/
def byteLen (s : Str) : Nat := (s.map charUtf8Size).sum

/-- Rust `char::is_whitespace` (the Unicode White_Space property). -/
def rustIsWhitespace (c : Char) : Bool :=
  c.toNat ∈ [0x09, 0x0A, 0x0B, 0x0C, 0x0D, 0x20, 0x85, 0xA0, 0x1680,
    0x2000, 0x2001, 0x2002, 0x2003, 0x2004, 0x2005, 0x2006, 0x2007,
    0x2008, 0x2009, 0x200A, 0x2028, 0x2029, 0x202F, 0x205F, 0x3000]

/-- Rust `str::trim_start`: remove leading whitespace. -/
def rustTrimStart (s : Str) : Str := s.dropWhile rustIsWhitespace

/-- Rust `str::trim_end`: remove trailing whitespace. -/
def rustTrimEnd (s : Str) : Str := (s.reverse.dropWhile rustIsWhitespace).reverse

/-- Rust `str::trim`: remove whitespace on both ends. -/
def rustTrim (s : Str) : Str := rustTrimEnd (rustTrimStart s)

/-- Rust `str::to_lowercase`, specialised to ASCII (every constant the
sources compare against is ASCII, so this is faithful there). -/
def toLowerStr (s : Str) : Str := s.map Char.toLower

/-- Rust `str::contains(&str)`: substring containment. -/
def containsSub (hay needle : Str) : Bool :=
  needle.isPrefixOf hay ||
    match hay with
    | [] => false
    | _ :: t => containsSub t needle

/-- Rust `str::contains(char)`. -/
def containsChar (s : Str) (c : Char) : Bool := s.contains c

/-- Rust `str::starts_with(&str)`. -/
def startsWithStr (s p : Str) : Bool := p.isPrefixOf s

/-- Split a character list at every occurrence of `sep` (like
`slice::split`, which always yields `n+1` pieces for `n` separators). -/
def splitOnChar (sep : Char) : Str → List Str
  | [] => [[]]
  | c :: cs =>
    if c == sep then [] :: splitOnChar sep cs
    else
      match splitOnChar sep cs with
      | [] => [[c]]
      | w :: ws => (c :: w) :: ws

/-- Split at every whitespace character, keeping possibly-empty pieces. -/
def splitOnWs : Str → List Str
  | [] => [[]]
  | c :: cs =>
    if rustIsWhitespace c then [] :: splitOnWs cs
    else
      match splitOnWs cs with
      | [] => [[c]]
      | w :: ws => (c :: w) :: ws

/-- Rust `str::split_whitespace`: the non-empty maximal runs of
non-whitespace characters. -/
def splitWhitespace (s : Str) : List Str :=
  (splitOnWs s).filter (fun w => !w.isEmpty)

/-- Decimal digits of a natural number (fuel-indexed loop). -/
def natToStrGo : Nat → Nat → Str
  | 0, _ => []
  | fuel + 1, n =>
    if n < 10 then [Char.ofNat (48 + n)]
    else natToStrGo fuel (n / 10) ++ [Char.ofNat (48 + n % 10)]

/-- Decimal rendering of a natural number. -/
def natToStr (n : Nat) : Str := natToStrGo (n + 1) n

/-- Decimal rendering of an integer (Rust `i32` display). -/
def intToStr : Int → Str
  | Int.ofNat n => natToStr n
  | Int.negSucc n => '-' :: natToStr (n + 1)

example : natToStr 401 = str "401" := by decide
example : intToStr (-1) = str "-1" := by decide
example : rustTrim (str "  a b  ") = str "a b" := by decide
example : splitWhitespace (str " aa  b ") = [str "aa", str "b"] := by decide
example : containsSub (str "hello world") (str "lo w") = true := by decide
example : byteLen (str "abc") = 3 := by decide

/-!
## Word-wrap utility (src/codex/mod.rs, `hard_wrap` / `wrap_line` / `wrap_text`)

`hard_wrap` slices by *character* count (Rust collects `line.chars()`),
while `wrap_line`'s length comparisons use *byte* lengths (`str::len`).
The slicing loop of `hard_wrap` is translated with an explicit fuel equal
to the character count, which the loop never exhausts.
-/

/-- The `while start < chars.len()` slicing loop of `hard_wrap`:
fuel-indexed; `chunkGo` takes `width`-character slices until the list is
exhausted.  Called with fuel `cs.length`, enough for every `width ≥ 1`. -/
def chunkGo : Nat → List Char → Nat → List Str
  | 0, _, _ => []
  | _ + 1, [], _ => []
  | fuel + 1, cs, width => cs.take width :: chunkGo fuel (cs.drop width) width

/-- Rust `hard_wrap(line, width)`: split into hard character-count slices
of at most `width` characters; a zero width returns the line unchanged. -/
def hard_wrap (line : Str) (width : Nat) : List Str :=
  if width = 0 then [line]
  else
    let out := chunkGo line.length line width
    if out.isEmpty then [[]] else out

/-- One iteration of `wrap_line`'s `for word in line.split_whitespace()`
loop; the accumulator is `(lines, current)`. -/
def wrapLineStep (width : Nat) (acc : List Str × Str) (word : Str) : List Str × Str :=
  let (lines, current) := acc
  if current.isEmpty then
    if byteLen word > width then (lines ++ hard_wrap word width, current)
    else (lines, word)
  else if byteLen current + 1 + byteLen word ≤ width then
    (lines, current ++ [' '] ++ word)
  else if byteLen word > width then
    (lines ++ [current] ++ hard_wrap word width, [])
  else (lines ++ [current], word)

/-- Rust `wrap_line(line, width)`: greedy word wrap of one line. -/
def wrap_line (line : Str) (width : Nat) : List Str :=
  if byteLen line ≤ width then [line]
  else
    let p := (splitWhitespace line).foldl (wrapLineStep width) ([], [])
    let lines := if p.2.isEmpty then p.1 else p.1 ++ [p.2]
    if lines.isEmpty then [[]] else lines

/-- Rust `str::lines`: split on `'\n'`, dropping one `'\r'` before each
line feed, with an optional final line ending. -/
def stripCR (p : Str) : Str := if p.getLast? = some '\r' then p.dropLast else p

/-- Rust `str::lines` on a whole text. -/
def rustLines (s : Str) : List Str :=
  let parts := splitOnChar '\n' s
  let init := parts.dropLast.map stripCR
  match parts.getLast? with
  | some [] => init
  | some last => init ++ [last]
  | none => init

/-- The `for raw in text.lines()` loop of `wrap_text`, carrying the
`in_code` fence state.  Fence-marker lines (trimmed form starting with
three backticks) are kept verbatim and toggle the state; inside a fence a
line is kept verbatim only when its byte length fits the width and is
otherwise hard-wrapped; outside, blank lines become empty output lines
and other lines are word-wrapped. -/
def wrapLinesGo (width : Nat) : List Str → Bool → List Str
  | [], _ => []
  | raw :: rest, in_code =>
    if startsWithStr (rustTrimStart raw) (str "```") then
      raw :: wrapLinesGo width rest (!in_code)
    else if in_code then
      (if byteLen raw ≤ width then [raw] else hard_wrap raw width) ++
        wrapLinesGo width rest in_code
    else if (rustTrim raw).isEmpty then
      [] :: wrapLinesGo width rest in_code
    else
      wrap_line raw width ++ wrapLinesGo width rest in_code

/-- Rust `wrap_text(text, width)`: the width is clamped up to 10 and the
lines are processed with the fence state starting outside a fence. -/
def wrap_text (text : Str) (width : Nat) : List Str :=
  wrapLinesGo (max width 10) (rustLines text) false

/-- The lines of the input that lie strictly inside a fenced code block:
the same scan as `wrap_text`, collecting the non-marker lines seen while
`in_code` is set. -/
def fenceInterior : List Str → Bool → List Str
  | [], _ => []
  | raw :: rest, in_code =>
    if startsWithStr (rustTrimStart raw) (str "```") then
      fenceInterior rest (!in_code)
    else if in_code then raw :: fenceInterior rest in_code
    else fenceInterior rest in_code

example : wrap_text (str "```\nAAAAAAAAAAAAAAA\n```") 10 =
    [str "```", str "AAAAAAAAAA", str "AAAAA", str "```"] := by decide
example : fenceInterior (rustLines (str "```\nAAAAAAAAAAAAAAA\n```")) false =
    [str "AAAAAAAAAAAAAAA"] := by decide
example : wrap_text (str "AAAAAAAAAAAAAAAAAAAA") 18 =
    [str "AAAAAAAAAAAAAAAAAA", str "AA"] := by decide

/-- Helper for C1: every non-marker line scanned while inside a fence
whose byte length fits the width is reproduced verbatim in the output of
the `wrap_text` loop. -/
theorem wrapLinesGo_keeps_short_fence_lines (lines : List Str) :
    ∀ (w : Nat) (inc : Bool) (l : Str),
      l ∈ fenceInterior lines inc → byteLen l ≤ w → l ∈ wrapLinesGo w lines inc := by
  induction lines with
  | nil => intro w inc l h _; simp [fenceInterior] at h
  | cons raw rest ih =>
    intro w inc l h hlen
    by_cases hm : startsWithStr (rustTrimStart raw) (str "```") = true
    · rw [fenceInterior, if_pos hm] at h
      rw [wrapLinesGo, if_pos hm]
      exact List.mem_cons_of_mem _ (ih w (!inc) l h hlen)
    · cases inc with
      | true =>
        rw [fenceInterior, if_neg hm, if_pos rfl] at h
        rw [wrapLinesGo, if_neg hm, if_pos rfl]
        rcases List.mem_cons.mp h with hEq | hTail
        · subst hEq
          exact List.mem_append_left _ (by rw [if_pos hlen]; exact List.mem_singleton.mpr rfl)
        · exact List.mem_append_right _ (ih w true l hTail hlen)
      | false =>
        rw [fenceInterior, if_neg hm, if_neg (by simp)] at h
        rw [wrapLinesGo, if_neg hm, if_neg (by simp)]
        by_cases hb : (rustTrim raw).isEmpty = true
        · rw [if_pos hb]
          exact List.mem_cons_of_mem _ (ih w false l h hlen)
        · rw [if_neg hb]
          exact List.mem_append_right _ (ih w false l h hlen)

/-- C1 counterexample: the claim fails as stated.  The 15-character line
`AAAAAAAAAAAAAAA` lies inside a fenced code block of the input, yet at
width 10 `wrap_text` does not leave it unchanged in its output — it is
hard-split into two slices — so lines inside a fence are *not* preserved
regardless of their length. -/
theorem wrap_text_splits_long_fence_line :
    str "AAAAAAAAAAAAAAA" ∈ fenceInterior (rustLines (str "```\nAAAAAAAAAAAAAAA\n```")) false ∧
    str "AAAAAAAAAAAAAAA" ∉ wrap_text (str "```\nAAAAAAAAAAAAAAA\n```") 10 ∧
    wrap_text (str "```\nAAAAAAAAAAAAAAA\n```") 10 =
      [str "```", str "AAAAAAAAAA", str "AAAAA", str "```"] := by
  refine ⟨by decide, by decide, by decide⟩

/-- C1 (amended): for every input text and width, `wrap_text` reproduces
unchanged, as a full output line, every line lying inside a fenced code
block whose byte length is at most the effective width (the requested
width clamped up to 10); only longer in-fence lines are hard-split. -/
theorem wrap_text_preserves_fitting_fence_lines (text : Str) (width : Nat) (l : Str)
    (hmem : l ∈ fenceInterior (rustLines text) false)
    (hlen : byteLen l ≤ max width 10) :
    l ∈ wrap_text text width := by
  exact wrapLinesGo_keeps_short_fence_lines (rustLines text) (max width 10) false l hmem hlen

/-- Witness for C1's theorem at a concrete input: the in-fence line
`print(1)` (8 bytes ≤ 10) survives `wrap_text` at width 10 verbatim. -/
theorem wrap_text_preserves_fitting_fence_lines_witness :
    str "print(1)" ∈ wrap_text (str "```py\nprint(1)\n```") 10 :=
  wrap_text_preserves_fitting_fence_lines (str "```py\nprint(1)\n```") 10
    (str "print(1)") (by decide) (by decide)

/-!
## JSON model and the event normalizer (src/codex/mod.rs)

`serde_json::Value` is modelled by `Json`; objects keep their entries as
association lists (first match wins on lookup, as with a map that has no
duplicate keys).  `renderJson` is `serde_json::to_string` /
`Value::to_string` (compact rendering), given fuel `sizeOf j` — strictly
more than the nesting depth — so the definition is structural and
kernel-evaluable.
-/

mutual
inductive Json where
  | null
  | bool (b : Bool)
  | num (n : Int)
  | str (s : Str)
  | arr (items : JsonList)
  | obj (entries : JsonKVs)

/-- `Vec<Value>`: the element list of a JSON array.  A mutual family is
used instead of `List Json` so that every recursion over values is plain
structural recursion (and hence evaluates inside the kernel). -/
inductive JsonList where
  | nil
  | cons (j : Json) (rest : JsonList)

/-- The key/value entries of a JSON object, in insertion order. -/
inductive JsonKVs where
  | nil
  | cons (k : Str) (v : Json) (rest : JsonKVs)
end

/-- View a `JsonList` as a plain list of values. -/
def JsonList.toList : JsonList → List Json
  | JsonList.nil => []
  | JsonList.cons j rest => j :: JsonList.toList rest

/-- Build a `JsonList` from a plain list of values. -/
def JsonList.ofList : List Json → JsonList
  | [] => JsonList.nil
  | j :: rest => JsonList.cons j (JsonList.ofList rest)

/-- Build object entries from a plain association list. -/
def JsonKVs.ofList : List (Str × Json) → JsonKVs
  | [] => JsonKVs.nil
  | (k, v) :: rest => JsonKVs.cons k v (JsonKVs.ofList rest)

/-- A JSON array from a plain list of values. -/
def Json.arrL (xs : List Json) : Json := Json.arr (JsonList.ofList xs)

/-- A JSON object from a plain association list. -/
def Json.objL (kvs : List (Str × Json)) : Json := Json.obj (JsonKVs.ofList kvs)

/-- Lookup of a key among an object's entries (`Value::get`). -/
def jsonLookup : JsonKVs → Str → Option Json
  | JsonKVs.nil, _ => none
  | JsonKVs.cons k v rest, key => if k == key then some v else jsonLookup rest key

/-- Rust `Value::get(key)`: `None` on every non-object. -/
def Json.get? : Json → Str → Option Json
  | Json.obj kvs, key => jsonLookup kvs key
  | _, _ => none

/-- Rust `Value::as_str`. -/
def Json.asStr : Json → Option Str
  | Json.str s => some s
  | _ => none

/-- Rust `Value::is_object`. -/
def Json.isObj : Json → Bool
  | Json.obj _ => true
  | _ => false

/-- Rust `Value::is_array`. -/
def Json.isArr : Json → Bool
  | Json.arr _ => true
  | _ => false

/-- Lowercase hexadecimal digit, as in serde's escape table. -/
def hexDigit (n : Nat) : Char :=
  if n < 10 then Char.ofNat (48 + n) else Char.ofNat (87 + n)

/-- serde_json's string escaping: quote, backslash and control characters
are escaped, everything else is emitted verbatim. -/
def escapeChar (c : Char) : Str :=
  if c = '"' then ['\\', '"']
  else if c = '\\' then ['\\', '\\']
  else if c = Char.ofNat 8 then ['\\', 'b']
  else if c = '\t' then ['\\', 't']
  else if c = '\n' then ['\\', 'n']
  else if c = Char.ofNat 12 then ['\\', 'f']
  else if c = '\r' then ['\\', 'r']
  else if c.toNat < 32 then
    ['\\', 'u', '0', '0', hexDigit (c.toNat / 16), hexDigit (c.toNat % 16)]
  else [c]

/-- A JSON string literal with quotes and escapes. -/
def quoteStr (s : Str) : Str :=
  '"' :: s.foldr (fun c acc => escapeChar c ++ acc) ['"']

/-- Comma-join of rendered fragments. -/
def joinComma : List Str → Str
  | [] => []
  | [x] => x
  | x :: xs => x ++ ',' :: joinComma xs

mutual
/-- Compact JSON rendering (`serde_json::to_string` / `Value::to_string`). -/
def renderJson : Json → Str
  | Json.null => str "null"
  | Json.bool b => if b then str "true" else str "false"
  | Json.num n => intToStr n
  | Json.str s => quoteStr s
  | Json.arr items => '[' :: joinComma (renderJsonList items) ++ [']']
  | Json.obj entries =>
    Char.ofNat 123 :: joinComma (renderJsonKVs entries) ++ [Char.ofNat 125]

/-- Rendered fragments of an array's elements. -/
def renderJsonList : JsonList → List Str
  | JsonList.nil => []
  | JsonList.cons j rest => renderJson j :: renderJsonList rest

/-- Rendered `"key":value` fragments of an object's entries. -/
def renderJsonKVs : JsonKVs → List Str
  | JsonKVs.nil => []
  | JsonKVs.cons k v rest => (quoteStr k ++ ':' :: renderJson v) :: renderJsonKVs rest
end

/-- Rust `str::trim_matches('"')`: strip every leading and trailing
double quote. -/
def trimMatchesQuote (s : Str) : Str :=
  ((s.dropWhile (· == '"')).reverse.dropWhile (· == '"')).reverse

inductive DisplayKind where
  | Assistant
  | User
  | Action
deriving DecidableEq

structure DisplayItem where
  kind : DisplayKind
  message : Str
deriving DecidableEq

/-- Rust `push_item`: append one item when `msg` is a non-empty JSON
string and do nothing otherwise. -/
def push_item (items : List DisplayItem) (kind : DisplayKind) (msg : Json) : List DisplayItem :=
  match msg with
  | Json.str text => if !text.isEmpty then items ++ [⟨kind, text⟩] else items
  | _ => items

/-- The text-bearing content part types of `extract_text_from_content`. -/
def textPartTypes : List Str :=
  [str "output_text", str "output_markdown", str "text", str "input_text"]

/-- Rust `extract_text_from_content`. -/
def extract_text_from_content (content : Json) : List Str :=
  match content with
  | Json.arr items =>
    (JsonList.toList items).foldl (fun texts item =>
      match item with
      | Json.obj map =>
        match jsonLookup map (str "type") with
        | some (Json.str item_type) =>
          if textPartTypes.contains item_type then
            match (jsonLookup map (str "text")).orElse (fun _ => jsonLookup map (str "content")) with
            | some (Json.str text) => if !text.isEmpty then texts ++ [text] else texts
            | _ => texts
          else texts
        | _ => texts
      | Json.str text => texts ++ [text]
      | _ => texts) []
  | Json.str text => [text]
  | _ => []

/-- The role-to-kind map of `items_from_message_payload`. -/
def roleKind : Option Str → Option DisplayKind
  | some r =>
    if r == str "assistant" then some DisplayKind.Assistant
    else if r == str "user" then some DisplayKind.User
    else none
  | none => none

/-- Rust `items_from_message_payload`. -/
def items_from_message_payload (payload : Json) : List DisplayItem :=
  if ((payload.get? (str "type")).bind Json.asStr) == some (str "message") then
    match roleKind ((payload.get? (str "role")).bind Json.asStr) with
    | some kind =>
      let content := (payload.get? (str "content")).getD Json.null
      let texts := extract_text_from_content content
      if !texts.isEmpty then texts.map (fun t => ⟨kind, t⟩)
      else
        match payload.get? (str "message") with
        | some (Json.str msg) => if !msg.isEmpty then [⟨kind, msg⟩] else []
        | _ => []
    | none => []
  else []

/-- Rust `items_from_item_payload`. -/
def items_from_item_payload (item : Json) : List DisplayItem :=
  let item_type := (((item.get? (str "type")).bind Json.asStr)).getD []
  if item_type == str "message" then items_from_message_payload item
  else if item_type == str "agent_message" || item_type == str "assistant_message" then
    let items := (extract_text_from_content ((item.get? (str "content")).getD Json.null)).map
      (fun t => (⟨DisplayKind.Assistant, t⟩ : DisplayItem))
    let items := push_item items DisplayKind.Assistant ((item.get? (str "text")).getD Json.null)
    push_item items DisplayKind.Assistant ((item.get? (str "message")).getD Json.null)
  else if item_type == str "user_message" || item_type == str "user" then
    let items := (extract_text_from_content ((item.get? (str "content")).getD Json.null)).map
      (fun t => (⟨DisplayKind.User, t⟩ : DisplayItem))
    let items := push_item items DisplayKind.User ((item.get? (str "text")).getD Json.null)
    push_item items DisplayKind.User ((item.get? (str "message")).getD Json.null)
  else []

/-- The tool calls contributed by one container in `iter_tool_calls`. -/
def toolCallsOf (container : Json) : List Json :=
  match container with
  | Json.obj map =>
    (match jsonLookup map (str "tool_call") with
     | some tc => if tc.isObj then [tc] else []
     | none => []) ++
    (match (jsonLookup map (str "tool_calls")).orElse (fun _ => jsonLookup map (str "tools")) with
     | some (Json.arr list) => (JsonList.toList list).filter Json.isObj
     | _ => [])
  | _ => []

/-- Rust `iter_tool_calls`. -/
def iter_tool_calls (containers : List Json) : List Json :=
  containers.foldl (fun calls c => calls ++ toolCallsOf c) []

/-- The explicit action type tags recognised by `format_action`. -/
def actionTypes : List Str :=
  [str "tool_call", str "function_call", str "action", str "tool"]

/-- Rust `format_action`: render a tool/function/action-shaped record as
`name: arguments`, with the fallbacks and guard order of the source's
final `match`. -/
def format_action (payload : Json) : Option Str :=
  let raw_type := toLowerStr (((payload.get? (str "type")).bind Json.asStr).getD [])
  let is_action := actionTypes.contains raw_type
  let has_name := (payload.get? (str "name")).isSome || (payload.get? (str "tool")).isSome ||
    (payload.get? (str "tool_name")).isSome
  let has_args := (payload.get? (str "arguments")).isSome || (payload.get? (str "args")).isSome ||
    (payload.get? (str "input")).isSome || (payload.get? (str "parameters")).isSome
  if !is_action && !(has_name && has_args) then none
  else
    let name := (((payload.get? (str "name")).orElse (fun _ => payload.get? (str "tool"))).orElse
      (fun _ => payload.get? (str "tool_name"))).orElse (fun _ => payload.get? (str "id"))
    let args := (((payload.get? (str "arguments")).orElse (fun _ => payload.get? (str "args"))).orElse
      (fun _ => payload.get? (str "input"))).orElse (fun _ => payload.get? (str "parameters"))
    let desc := (payload.get? (str "message")).orElse (fun _ => payload.get? (str "description"))
    let descResult : Option Str :=
      match desc with
      | some (Json.str d) =>
        if !(rustTrim d).isEmpty && name.isNone && args.isNone then some (rustTrim d) else none
      | _ => none
    match descResult with
    | some d => some d
    | none =>
      let arg_text := args.map (fun v =>
        if v.isObj || v.isArr then renderJson v else trimMatchesQuote (renderJson v))
      match name, arg_text with
      | some n, some a =>
        match n with
        | Json.str s =>
          if !s.isEmpty then some (s ++ str ": " ++ a)
          else some (trimMatchesQuote (renderJson n) ++ str ": " ++ a)
        | _ => some (trimMatchesQuote (renderJson n) ++ str ": " ++ a)
      | some n, none =>
        match n with
        | Json.str s => if !s.isEmpty then some s else some (trimMatchesQuote (renderJson n))
        | _ => some (trimMatchesQuote (renderJson n))
      | none, some a => if !a.isEmpty then some a else none
      | none, none => none

/-- The per-call dedup at the end of `extract_display_items` (a `HashSet`
of `(kind, message)` fingerprints, keeping first occurrences in order). -/
def dedupGo : List (DisplayKind × Str) → List DisplayItem → List DisplayItem
  | _, [] => []
  | seen, i :: rest =>
    if seen.contains (i.kind, i.message) then dedupGo seen rest
    else i :: dedupGo ((i.kind, i.message) :: seen) rest

/-- Rust `extract_display_items`. -/
def extract_display_items (obj : Json) : List DisplayItem :=
  let event_type := (obj.get? (str "type")).bind Json.asStr
  let payload := (obj.get? (str "payload")).getD Json.null
  let items : List DisplayItem :=
    if event_type == some (str "event_msg") then
      match payload with
      | Json.obj map =>
        let payload_type := (jsonLookup map (str "type")).bind Json.asStr
        let msg := ((jsonLookup map (str "message")).orElse
          (fun _ => jsonLookup map (str "text"))).getD Json.null
        if payload_type == some (str "agent_message") ||
            payload_type == some (str "assistant_message") then
          push_item [] DisplayKind.Assistant msg
        else if payload_type == some (str "user_message") ||
            payload_type == some (str "user") then
          push_item [] DisplayKind.User msg
        else
          match format_action payload with
          | some action => [⟨DisplayKind.Action, action⟩]
          | none => []
      | _ => []
    else []
  let items :=
    if event_type == some (str "response_item") then
      let items := items ++ items_from_message_payload payload
      match format_action payload with
      | some action => items ++ [⟨DisplayKind.Action, action⟩]
      | none => items
    else items
  let items :=
    if event_type == some (str "response.output_text.done") ||
        event_type == some (str "response.output_text") then
      push_item items DisplayKind.Assistant ((obj.get? (str "text")).getD Json.null)
    else items
  let item := (obj.get? (str "item")).getD Json.null
  let items :=
    if item.isObj then
      let items := items ++ items_from_item_payload item
      match format_action item with
      | some action => items ++ [⟨DisplayKind.Action, action⟩]
      | none => items
    else items
  let items := items ++
    ((iter_tool_calls [obj, payload, item]).filterMap format_action).map
      (fun a => (⟨DisplayKind.Action, a⟩ : DisplayItem))
  dedupGo [] items

/-- The claim's tool-call record with the tool-call fields at the top
level of the object: `\x7b"type":"tool_call","name":"list_files","arguments":\x7b"path":"."\x7d\x7d`. -/
def toolCallTopLevel : Json :=
  Json.objL [(str "type", Json.str (str "tool_call")),
    (str "name", Json.str (str "list_files")),
    (str "arguments", Json.objL [(str "path", Json.str (str "."))])]

/-- The same tool-call fields wrapped as the payload of a
`response_item` envelope, the shape the normalizer recognises (and the
shape the repository's own test exercises). -/
def toolCallResponseItem : Json :=
  Json.objL [(str "type", Json.str (str "response_item")),
    (str "payload", Json.objL [(str "type", Json.str (str "tool_call")),
      (str "name", Json.str (str "list_files")),
      (str "arguments", Json.objL [(str "path", Json.str (str "."))])])]

example : renderJson (Json.objL [(str "path", Json.str (str "."))]) =
    str "\x7b\"path\":\".\"\x7d" := by decide

/-- C2 counterexample: the claim fails as stated.  On the record with the
tool-call fields at the top level, `extract_display_items` yields *no*
display items at all — `format_action` is only applied to the `payload`,
`item` and embedded tool-call containers, never to the top-level object. -/
theorem extract_display_items_top_level_tool_call_empty :
    extract_display_items toolCallTopLevel = [] := by decide

/-- C2 (amended): only a wrapped tool-call record is rendered.  With the
same tool-call fields as the payload of a `response_item` record,
`extract_display_items` yields exactly one `Action` item whose text
contains both the name `list_files` and the compact rendering of the
arguments object; the bare top-level form yields nothing. -/
theorem extract_display_items_wrapped_tool_call :
    extract_display_items toolCallResponseItem =
      [⟨DisplayKind.Action, str "list_files: \x7b\"path\":\".\"\x7d"⟩] ∧
    containsSub (str "list_files: \x7b\"path\":\".\"\x7d") (str "list_files") = true ∧
    containsSub (str "list_files: \x7b\"path\":\".\"\x7d") (str "\x7b\"path\":\".\"\x7d") = true := by
  refine ⟨by decide, by decide, by decide⟩

/-!
## Error status extraction and hints (src/codex/mod.rs,
`extract_status_code` / `codex_hint_for_status`)

The first regex `(?i)(?:unexpected status|last status[: ]+)\s*(\d{3})` is
embedded as a leftmost scan over the lowercased message
(`scan_explicit`); the fallback regex `\b(\d{3})\b` as a leftmost scan
with word-boundary checks (`scan_bare`).  The character classes are the
ASCII cores of the regex classes, faithful for the ASCII strings the
agent emits.
-/

/-- Numeric value of an ASCII digit. -/
def digitVal (c : Char) : Nat := c.toNat - 48

/-- The capture `(\d{3})`: the first three characters must be digits. -/
def three_digits : Str → Option Nat
  | a :: b :: c :: _ =>
    if a.isDigit && b.isDigit && c.isDigit then
      some (100 * digitVal a + 10 * digitVal b + digitVal c)
    else none
  | _ => none

/-- One attempt of the explicit-pattern regex at a fixed start position:
either `unexpected status` then `\s*` then three digits, or
`last status` then `[: ]+` then `\s*` then three digits. -/
def try_explicit_at (l : Str) : Option Nat :=
  if startsWithStr l (str "unexpected status") then
    three_digits ((l.drop 17).dropWhile rustIsWhitespace)
  else if startsWithStr l (str "last status") then
    let rest := l.drop 11
    if (rest.takeWhile (fun c => c == ':' || c == ' ')).isEmpty then none
    else
      three_digits ((rest.dropWhile (fun c => c == ':' || c == ' ')).dropWhile rustIsWhitespace)
  else none

/-- Leftmost match of the explicit `unexpected status` / `last status`
pattern over the lowercased message. -/
def scan_explicit : Str → Option Nat
  | [] => none
  | c :: rest =>
    match try_explicit_at (c :: rest) with
    | some n => some n
    | none => scan_explicit rest

/-- A regex word character (`\w`), ASCII core. -/
def isWordChar (c : Char) : Bool := c.isAlphanum || c == '_'

/-- The boundary test `\b` on the previous character. -/
def boundaryOk : Option Char → Bool
  | none => true
  | some p => !isWordChar p

/-- Leftmost match of the fallback regex `\b(\d{3})\b`: the first bare
three-digit token delimited by word boundaries. -/
def scan_bare (prev : Option Char) : Str → Option Nat
  | a :: b :: c :: rest =>
    if boundaryOk prev && a.isDigit && b.isDigit && c.isDigit &&
        (match rest with | [] => true | d :: _ => !isWordChar d) then
      some (100 * digitVal a + 10 * digitVal b + digitVal c)
    else scan_bare (some a) (b :: c :: rest)
  | _ => none

/-- Rust `extract_status_code`: the explicit pattern first, then the
bare-token fallback. -/
def extract_status_code (msg : Str) : Option Nat :=
  match scan_explicit (toLowerStr msg) with
  | some n => some n
  | none => scan_bare none msg

/-- Rust `codex_hint_for_status`: the fixed hint table. -/
def codex_hint_for_status (status : Nat) : Option Str :=
  if status = 401 then
    some (str "401 = authentification invalide -> Ctrl+K (login) ou `codex logout` + login ChatGPT.")
  else if status = 403 then
    some (str "403 = acces interdit -> verifie login ChatGPT (pas API key) / droits / reseau.")
  else if status = 407 then
    some (str "407 = proxy auth required -> configure HTTP_PROXY/HTTPS_PROXY.")
  else if status = 429 then
    some (str "429 = rate limit -> reessaie plus tard / ralentis.")
  else if 500 ≤ status ∧ status ≤ 599 then
    some (str "5xx = erreur serveur -> reessaie, possible incident cote OpenAI.")
  else none

example : extract_status_code (str "unexpected status 401 Unauthorized") = some 401 := by decide
example : extract_status_code (str "last status: 403 Forbidden") = some 403 := by decide
example : extract_status_code (str "HTTP 429") = some 429 := by decide
example : extract_status_code (str "aucun code ici") = none := by decide

/-- C8: the status extraction prefers the explicit
`unexpected status NNN` / `last status: NNN` pattern, falls back to the
first bare three-digit token only when no explicit pattern is present,
and the hint table yields a hint exactly for 401, 403, 407, 429 and
500–599. -/
theorem extract_status_code_precedence_and_hint_table :
    (∀ msg n, scan_explicit (toLowerStr msg) = some n → extract_status_code msg = some n) ∧
    (∀ msg, scan_explicit (toLowerStr msg) = none →
      extract_status_code msg = scan_bare none msg) ∧
    (∀ status : Nat, (codex_hint_for_status status).isSome = true ↔
      (status = 401 ∨ status = 403 ∨ status = 407 ∨ status = 429 ∨
        (500 ≤ status ∧ status ≤ 599))) := by
  refine ⟨?_, ?_, ?_⟩
  · intro msg n h
    simp [extract_status_code, h]
  · intro msg h
    simp [extract_status_code, h]
  · intro status
    unfold codex_hint_for_status
    split_ifs with h1 h2 h3 h4 h5 <;> simp_all

/-- Witness for C8's theorem at concrete inputs: an explicit
`unexpected status` message resolves through the explicit pattern, and a
message without any explicit pattern resolves through the bare fallback. -/
theorem extract_status_code_precedence_witness :
    extract_status_code (str "unexpected status 401 Unauthorized") = some 401 ∧
    extract_status_code (str "HTTP 429") = scan_bare none (str "HTTP 429") :=
  ⟨extract_status_code_precedence_and_hint_table.1 _ 401 (by decide),
   extract_status_code_precedence_and_hint_table.2.1 _ (by decide)⟩

/-!
## Capability negotiator (src/gui/mod.rs)

The GUI fields touched by the flag-line handlers are gathered in
`CodexGuiState`; the `codex_log_action` downgrade notices the handlers
emit are recorded in the `notices` field.
-/

inductive CodexSandboxMode where
  | ReadOnly
  | WorkspaceWrite
  | DangerFullAccess
deriving DecidableEq

/-- Rust `CodexSandboxMode::as_str`. -/
def CodexSandboxMode.as_str : CodexSandboxMode → Str
  | CodexSandboxMode.ReadOnly => str "read-only"
  | CodexSandboxMode.WorkspaceWrite => str "workspace-write"
  | CodexSandboxMode.DangerFullAccess => str "danger-full-access"

inductive CodexApprovalPolicy where
  | Untrusted
  | OnFailure
  | OnRequest
  | Never
deriving DecidableEq

/-- Rust `CodexApprovalPolicy::as_str`. -/
def CodexApprovalPolicy.as_str : CodexApprovalPolicy → Str
  | CodexApprovalPolicy.Untrusted => str "untrusted"
  | CodexApprovalPolicy.OnFailure => str "on-failure"
  | CodexApprovalPolicy.OnRequest => str "on-request"
  | CodexApprovalPolicy.Never => str "never"

/-- The `GuiApp` fields driving capability negotiation. -/
structure CodexGuiState where
  codex_sandbox_supported : Option Bool
  codex_approval_supported : Option Bool
  codex_exec_used_sandbox_flag : Bool
  codex_exec_used_approval_flag : Bool
  codex_retry_without_sandbox : Bool
  codex_retry_without_approval : Bool
  codex_sandbox_mode : CodexSandboxMode
  codex_approval_policy : CodexApprovalPolicy
  notices : List Str
deriving DecidableEq

/-- Rust `GuiApp::approval_flag_error`. -/
def approval_flag_error (line : Str) : Bool :=
  let lower := toLowerStr line
  containsSub lower (str "--ask-for-approval") &&
    (containsSub lower (str "unexpected argument") ||
      containsSub lower (str "unknown argument") ||
      containsSub lower (str "unrecognized"))

/-- Rust `GuiApp::sandbox_flag_error`. -/
def sandbox_flag_error (line : Str) : Bool :=
  let lower := toLowerStr line
  containsSub lower (str "--sandbox") &&
    (containsSub lower (str "unexpected argument") ||
      containsSub lower (str "unknown argument") ||
      containsSub lower (str "unrecognized"))

/-- Rust `GuiApp::sandbox_value_error` — note the source has no
approval-flag counterpart of this value-error predicate. -/
def sandbox_value_error (line : Str) : Bool :=
  let lower := toLowerStr line
  containsSub lower (str "--sandbox") &&
    (containsSub lower (str "invalid value") || containsSub lower (str "possible values"))

/-- The downgrade notice logged when the approval flag is flipped. -/
def approval_notice : Str :=
  str "Option --ask-for-approval non supportee par cette version Codex. Relance sans approbations."

/-- The downgrade notice logged when the sandbox flag is flipped. -/
def sandbox_notice : Str :=
  str "Option --sandbox non supportee par cette version Codex. Relance sans sandbox (mode par defaut)."

/-- Rust `GuiApp::handle_approval_flag_line`: returns whether the line
was consumed, together with the updated state. -/
def handle_approval_flag_line (s : CodexGuiState) (line : Str) : Bool × CodexGuiState :=
  if !s.codex_exec_used_approval_flag || !approval_flag_error line then (false, s)
  else if s.codex_approval_supported ≠ some false then
    (true, { s with codex_approval_supported := some false,
                    notices := s.notices ++ [approval_notice],
                    codex_retry_without_approval := true })
  else (true, { s with codex_retry_without_approval := true })

/-- Rust `GuiApp::handle_sandbox_flag_line`. -/
def handle_sandbox_flag_line (s : CodexGuiState) (line : Str) : Bool × CodexGuiState :=
  if !s.codex_exec_used_sandbox_flag then (false, s)
  else if sandbox_flag_error line || sandbox_value_error line then
    if s.codex_sandbox_supported ≠ some false then
      (true, { s with codex_sandbox_supported := some false,
                      notices := s.notices ++ [sandbox_notice],
                      codex_retry_without_sandbox := true })
    else (true, { s with codex_retry_without_sandbox := true })
  else (false, s)

/-- The flag-line dispatch of `GuiApp::handle_codex_line`:
`handle_sandbox_flag_line(l) || handle_approval_flag_line(l)` with
short-circuiting. -/
def handle_flag_lines (s : CodexGuiState) (line : Str) : CodexGuiState :=
  let r := handle_sandbox_flag_line s line
  if r.1 then r.2 else (handle_approval_flag_line r.2 line).2

/-- Rust `GuiApp::codex_exec_extra_args`. -/
def codex_exec_extra_args (s : CodexGuiState) : List Str :=
  let args : List Str := []
  let args := if s.codex_sandbox_supported ≠ some false then
      args ++ [str "--sandbox", s.codex_sandbox_mode.as_str] else args
  let args := if s.codex_approval_supported ≠ some false then
      args ++ [str "--ask-for-approval", s.codex_approval_policy.as_str] else args
  args

/-- A state in which both optional flags were passed on the current
invocation and neither is yet known-unsupported. -/
def freshFlagsState : CodexGuiState where
  codex_sandbox_supported := none
  codex_approval_supported := none
  codex_exec_used_sandbox_flag := true
  codex_exec_used_approval_flag := true
  codex_retry_without_sandbox := false
  codex_retry_without_approval := false
  codex_sandbox_mode := CodexSandboxMode.WorkspaceWrite
  codex_approval_policy := CodexApprovalPolicy.Never
  notices := []

/-- An error line with `invalid value` / `possible values` phrasing for
the approval flag (and no argument-rejection phrase). -/
def approvalInvalidValueLine : Str :=
  str "error: invalid value 'foo' for '--ask-for-approval' [possible values: untrusted, on-failure, on-request, never]"

/-- C3 counterexample: the claim fails as stated.  While the approval
flag is in use, a line mentioning `--ask-for-approval` together with
`invalid value` and `possible values` phrasing is *not* consumed: neither
the approval handler nor the whole flag-line dispatch changes any state —
the approval flag is not flipped to unsupported and no retry is marked
(the value-unsupported rule exists only for the sandbox flag). -/
theorem approval_value_error_not_handled :
    handle_approval_flag_line freshFlagsState approvalInvalidValueLine =
      (false, freshFlagsState) ∧
    handle_flag_lines freshFlagsState approvalInvalidValueLine = freshFlagsState := by
  refine ⟨by decide, by decide⟩

/-- C3 (amended): the approval flag's capability state is flipped by
argument-rejection phrasing only.  For every line observed while the
approval flag was actually passed that mentions `--ask-for-approval`
together with unexpected/unknown/unrecognized-argument phrasing, the
approval flag is flipped to unsupported and the invocation is marked for
retry; `invalid value` / `possible values` phrasing is handled only for
the sandbox flag. -/
theorem handle_approval_flag_line_rejection_phrases (s : CodexGuiState) (line : Str)
    (hused : s.codex_exec_used_approval_flag = true)
    (herr : approval_flag_error line = true) :
    (handle_approval_flag_line s line).1 = true ∧
    (handle_approval_flag_line s line).2.codex_approval_supported = some false ∧
    (handle_approval_flag_line s line).2.codex_retry_without_approval = true := by
  unfold handle_approval_flag_line
  rw [hused, herr]
  by_cases h : s.codex_approval_supported ≠ some false
  · simp [h]
  · simp only [ne_eq, not_not] at h
    simp [h]

/-- Witness for C3's amended theorem at a concrete input. -/
theorem handle_approval_flag_line_rejection_witness :
    (handle_approval_flag_line freshFlagsState
      (str "error: unexpected argument '--ask-for-approval' found")).2.codex_approval_supported =
      some false :=
  (handle_approval_flag_line_rejection_phrases freshFlagsState
    (str "error: unexpected argument '--ask-for-approval' found")
    (by decide) (by decide)).2.1

/-- C6: capability flag state is one-way.  Under the flag-line dispatch
(the only writer of the support fields) each flag either keeps its value
or moves to unsupported, and once unsupported it stays unsupported; the
extra argument list contains the `--sandbox <mode>` pair exactly while
the sandbox flag is not known-unsupported and the `--ask-for-approval
<policy>` pair exactly while the approval flag is not known-unsupported,
in that fixed order; and a handler seeing an already-unsupported flag
appends no duplicate downgrade notice. -/
theorem capability_flags_one_way_and_extra_args (s : CodexGuiState) (line : Str) :
    ((handle_flag_lines s line).codex_sandbox_supported = s.codex_sandbox_supported ∨
      (handle_flag_lines s line).codex_sandbox_supported = some false) ∧
    ((handle_flag_lines s line).codex_approval_supported = s.codex_approval_supported ∨
      (handle_flag_lines s line).codex_approval_supported = some false) ∧
    (s.codex_sandbox_supported = some false →
      (handle_flag_lines s line).codex_sandbox_supported = some false) ∧
    (s.codex_approval_supported = some false →
      (handle_flag_lines s line).codex_approval_supported = some false) ∧
    (codex_exec_extra_args s =
      (if s.codex_sandbox_supported ≠ some false then
        [str "--sandbox", s.codex_sandbox_mode.as_str] else []) ++
      (if s.codex_approval_supported ≠ some false then
        [str "--ask-for-approval", s.codex_approval_policy.as_str] else [])) ∧
    (s.codex_sandbox_supported = some false →
      (handle_sandbox_flag_line s line).2.notices = s.notices) ∧
    (s.codex_approval_supported = some false →
      (handle_approval_flag_line s line).2.notices = s.notices) := by
  by_cases h3 : s.codex_sandbox_supported = some false <;>
    by_cases h5 : s.codex_approval_supported = some false <;>
    cases hu : s.codex_exec_used_sandbox_flag <;>
    cases hua : s.codex_exec_used_approval_flag <;>
    cases he : sandbox_flag_error line <;>
    cases hv : sandbox_value_error line <;>
    cases ha : approval_flag_error line <;>
    simp_all [handle_flag_lines, handle_sandbox_flag_line, handle_approval_flag_line,
      codex_exec_extra_args]

/-- A state in which both optional flags are already known-unsupported. -/
def bothDownState : CodexGuiState where
  codex_sandbox_supported := some false
  codex_approval_supported := some false
  codex_exec_used_sandbox_flag := true
  codex_exec_used_approval_flag := true
  codex_retry_without_sandbox := false
  codex_retry_without_approval := false
  codex_sandbox_mode := CodexSandboxMode.WorkspaceWrite
  codex_approval_policy := CodexApprovalPolicy.Never
  notices := [sandbox_notice]

/-- Witness for C6's theorem at a concrete input: with both flags
already unsupported, they stay unsupported across another error line and
re-flipping appends no duplicate notice. -/
theorem capability_flags_one_way_witness :
    (handle_flag_lines bothDownState
      (str "error: unexpected argument '--sandbox' found")).codex_sandbox_supported =
      some false ∧
    (handle_sandbox_flag_line bothDownState
      (str "error: unexpected argument '--sandbox' found")).2.notices =
      bothDownState.notices := by
  obtain ⟨-, -, hmono, -, -, hnotice, -⟩ :=
    capability_flags_one_way_and_extra_args bothDownState
      (str "error: unexpected argument '--sandbox' found")
  exact ⟨hmono rfl, hnotice rfl⟩

/-!
## Codex log dedup (src/gui/mod.rs, `codex_log_entry` and its wrappers)

`push_log` splits its message on `'\n'`, appends one `LogLine` per piece
to the codex log, and then drains the store from the front down to
`LOG_LIMIT` lines, so the log is a bounded buffer; `codex_log_entry`
pushes a label line, the trimmed text and a blank separator, suppressing
the entry when its `label:text` fingerprint equals the most recently
emitted one.
-/

inductive LogKind where
  | Info
  | Warn
  | Error
  | User
  | Assistant
  | Action
deriving DecidableEq

/-- The `GuiApp` fields touched by `codex_log_entry`: the remembered
fingerprint and the codex log store. -/
structure LogState where
  last_codex_message : Option Str
  codex_log : List (Str × LogKind)
deriving DecidableEq

/-- Rust `const LOG_LIMIT: usize = 2000`. -/
def LOG_LIMIT : Nat := 2000

/-- The `store.drain(0..drain)` step of `push_log`: when the store
exceeds `LOG_LIMIT` lines, the oldest excess lines are removed from the
front. -/
def drainToLimit (store : List (Str × LogKind)) : List (Str × LogKind) :=
  if store.length > LOG_LIMIT then store.drop (store.length - LOG_LIMIT) else store

/-- Rust `GuiApp::push_log` restricted to `LogTarget::Codex`: append one
line per `'\n'`-separated piece of the message, then drain the store
down to `LOG_LIMIT` lines. -/
def push_log (log : List (Str × LogKind)) (msg : Str) (kind : LogKind) : List (Str × LogKind) :=
  drainToLimit (log ++ (splitOnChar '\n' msg).map (fun line => (line, kind)))

/-- Rust `GuiApp::codex_log_entry`. -/
def codex_log_entry (s : LogState) (msg label : Str) (kind : LogKind) : LogState :=
  let cleaned := rustTrim msg
  if cleaned.isEmpty then s
  else
    let fp := label ++ ':' :: cleaned
    if s.last_codex_message = some fp then s
    else
      { last_codex_message := some fp,
        codex_log := push_log (push_log (push_log s.codex_log label LogKind.Action)
          cleaned kind) [] LogKind.Info }

/-- Rust `GuiApp::codex_log_user_message`. -/
def codex_log_user_message (s : LogState) (msg : Str) : LogState :=
  codex_log_entry s msg (str "Utilisateur") LogKind.User

/-- Rust `GuiApp::codex_log_action`. -/
def codex_log_action (s : LogState) (msg : Str) : LogState :=
  codex_log_entry s msg (str "Action") LogKind.Action

/-- Rust `GuiApp::codex_log_message`. -/
def codex_log_message (s : LogState) (msg : Str) : LogState :=
  codex_log_entry s msg (str "Assistant") LogKind.Assistant

/-- The display-item dispatch of `handle_codex_line`'s compact loop. -/
def emitDisplay (s : LogState) : DisplayKind → Str → LogState
  | DisplayKind.Assistant, m => codex_log_message s m
  | DisplayKind.User, m => codex_log_user_message s m
  | DisplayKind.Action, m => codex_log_action s m

/-- The label each display kind is logged under. -/
def labelOf : DisplayKind → Str
  | DisplayKind.Assistant => str "Assistant"
  | DisplayKind.User => str "Utilisateur"
  | DisplayKind.Action => str "Action"

/-- The log kind each display kind is logged under. -/
def logKindOf : DisplayKind → LogKind
  | DisplayKind.Assistant => LogKind.Assistant
  | DisplayKind.User => LogKind.User
  | DisplayKind.Action => LogKind.Action

/-- The `label:text` fingerprint of one emitted entry. -/
def fingerprint (k : DisplayKind) (t : Str) : Str := labelOf k ++ ':' :: t

/-- The log lines one non-suppressed entry appends. -/
def codex_entry_lines (label cleaned : Str) (kind : LogKind) : List (Str × LogKind) :=
  (splitOnChar '\n' label).map (fun l => (l, LogKind.Action)) ++
    (splitOnChar '\n' cleaned).map (fun l => (l, kind)) ++ [([], LogKind.Info)]

theorem emitDisplay_eq (s : LogState) (k : DisplayKind) (m : Str) :
    emitDisplay s k m = codex_log_entry s m (labelOf k) (logKindOf k) := by
  cases k <;> rfl

/-- The label part of a fingerprint (everything before the first colon). -/
def labelPart (s : Str) : Str := s.takeWhile (fun c => !(c == ':'))

/-- The text part of a fingerprint (everything after the first colon). -/
def textPart (s : Str) : Str := (s.dropWhile (fun c => !(c == ':'))).drop 1

theorem labelPart_fingerprint (k : DisplayKind) (t : Str) :
    labelPart (fingerprint k t) = labelOf k := by
  cases k <;> rfl

theorem textPart_fingerprint (k : DisplayKind) (t : Str) :
    textPart (fingerprint k t) = t := by
  cases k <;> rfl

theorem labelOf_inj (k k' : DisplayKind) (h : labelOf k = labelOf k') : k = k' := by
  cases k <;> cases k' <;> first | rfl | exact absurd h (by decide)

theorem fingerprint_inj {k k' : DisplayKind} {t t' : Str}
    (h : fingerprint k t = fingerprint k' t') : k = k' ∧ t = t' := by
  have hl := congrArg labelPart h
  have ht := congrArg textPart h
  rw [labelPart_fingerprint, labelPart_fingerprint] at hl
  rw [textPart_fingerprint, textPart_fingerprint] at ht
  exact ⟨labelOf_inj _ _ hl, ht⟩

theorem emitDisplay_last (s : LogState) (k : DisplayKind) (m : Str)
    (h : (rustTrim m).isEmpty = false) :
    (emitDisplay s k m).last_codex_message = some (fingerprint k (rustTrim m)) := by
  rw [emitDisplay_eq]
  simp only [codex_log_entry, h, Bool.false_eq_true, if_false]
  split_ifs with hif
  · rw [hif]; rfl
  · rfl

theorem drainToLimit_keeps_suffix (p s : List (Str × LogKind)) (h : s.length ≤ LOG_LIMIT) :
    ∃ q, drainToLimit (p ++ s) = q ++ s := by
  unfold drainToLimit
  split_ifs with hlen
  · refine ⟨p.drop ((p ++ s).length - LOG_LIMIT), ?_⟩
    rw [List.drop_append_of_le_length (by simp [List.length_append]; omega)]
  · exact ⟨p, rfl⟩

theorem push_log_keeps_suffix (log p s : List (Str × LogKind)) (hlog : log = p ++ s)
    (msg : Str) (kind : LogKind)
    (h : s.length + (splitOnChar '\n' msg).length ≤ LOG_LIMIT) :
    ∃ q, push_log log msg kind =
      q ++ (s ++ (splitOnChar '\n' msg).map (fun line => (line, kind))) := by
  subst hlog
  unfold push_log
  rw [List.append_assoc]
  exact drainToLimit_keeps_suffix p _ (by simpa using h)

theorem labelOf_single_line (k : DisplayKind) :
    splitOnChar '\n' (labelOf k) = [labelOf k] := by
  cases k <;> rfl

/-- A non-suppressed entry whose lines fit the `LOG_LIMIT` bound ends up
at the tail of the drained log: the three `push_log` calls of one
`codex_log_entry` emission leave the entry's label line, text lines and
blank separator as the log's suffix. -/
theorem codex_entry_push_suffix (log : List (Str × LogKind)) (k : DisplayKind) (cleaned : Str)
    (hfit : (splitOnChar '\n' cleaned).length + 2 ≤ LOG_LIMIT) :
    ∃ q, push_log (push_log (push_log log (labelOf k) LogKind.Action) cleaned
        (logKindOf k)) [] LogKind.Info =
      q ++ codex_entry_lines (labelOf k) cleaned (logKindOf k) := by
  obtain ⟨q₁, h1⟩ := push_log_keeps_suffix log log [] (by simp) (labelOf k) LogKind.Action
    (by simp [labelOf_single_line, LOG_LIMIT])
  rw [List.nil_append] at h1
  obtain ⟨q₂, h2⟩ := push_log_keeps_suffix _ q₁ _ h1 cleaned (logKindOf k)
    (by simp [labelOf_single_line]; omega)
  obtain ⟨q₃, h3⟩ := push_log_keeps_suffix _ q₂ _ h2 [] LogKind.Info
    (by simp [labelOf_single_line, splitOnChar]; omega)
  refine ⟨q₃, ?_⟩
  rw [h3]
  simp [codex_entry_lines, List.append_assoc, splitOnChar]

/-- C9: session-level dedup.  Emitting a display entry and then an
identical one (same kind, hence same label, and same trimmed text) in
immediate succession leaves the log state unchanged — only one entry is
rendered.  An immediately following entry that differs in kind (label)
or trimmed text is never suppressed by this rule: the emit path runs in
full — the remembered fingerprint is replaced and the three `push_log`
calls are applied to the bounded log — and whenever the entry's lines
fit the `LOG_LIMIT` bound, the drained log ends with exactly the new
entry's lines. -/
theorem codex_log_entry_session_dedup (s : LogState) (k₁ k₂ : DisplayKind) (m₁ m₂ : Str)
    (h₁ : (rustTrim m₁).isEmpty = false) (h₂ : (rustTrim m₂).isEmpty = false) :
    (k₂ = k₁ ∧ rustTrim m₂ = rustTrim m₁ →
      emitDisplay (emitDisplay s k₁ m₁) k₂ m₂ = emitDisplay s k₁ m₁) ∧
    (¬(k₂ = k₁ ∧ rustTrim m₂ = rustTrim m₁) →
      emitDisplay (emitDisplay s k₁ m₁) k₂ m₂ =
        { last_codex_message := some (fingerprint k₂ (rustTrim m₂)),
          codex_log := push_log (push_log (push_log (emitDisplay s k₁ m₁).codex_log
            (labelOf k₂) LogKind.Action) (rustTrim m₂) (logKindOf k₂)) [] LogKind.Info }) ∧
    (¬(k₂ = k₁ ∧ rustTrim m₂ = rustTrim m₁) →
      (splitOnChar '\n' (rustTrim m₂)).length + 2 ≤ LOG_LIMIT →
      ∃ q, (emitDisplay (emitDisplay s k₁ m₁) k₂ m₂).codex_log =
        q ++ codex_entry_lines (labelOf k₂) (rustTrim m₂) (logKindOf k₂)) := by
  have hlast := emitDisplay_last s k₁ m₁ h₁
  have hemit : ¬(k₂ = k₁ ∧ rustTrim m₂ = rustTrim m₁) →
      emitDisplay (emitDisplay s k₁ m₁) k₂ m₂ =
        { last_codex_message := some (fingerprint k₂ (rustTrim m₂)),
          codex_log := push_log (push_log (push_log (emitDisplay s k₁ m₁).codex_log
            (labelOf k₂) LogKind.Action) (rustTrim m₂) (logKindOf k₂)) [] LogKind.Info } := by
    intro hne
    have hfpne : ¬((emitDisplay s k₁ m₁).last_codex_message =
        some (labelOf k₂ ++ ':' :: rustTrim m₂)) := by
      rw [hlast]
      intro hcontra
      have hfp : fingerprint k₁ (rustTrim m₁) = fingerprint k₂ (rustTrim m₂) :=
        Option.some.injEq _ _ ▸ hcontra
      obtain ⟨hk, ht⟩ := fingerprint_inj hfp
      exact hne ⟨hk.symm, ht.symm⟩
    rw [emitDisplay_eq (emitDisplay s k₁ m₁)]
    simp only [codex_log_entry, h₂, Bool.false_eq_true, if_false]
    rw [if_neg hfpne]
    rfl
  refine ⟨?_, hemit, ?_⟩
  · rintro ⟨rfl, heq⟩
    rw [emitDisplay_eq (emitDisplay s k₂ m₁)]
    simp [codex_log_entry, h₂, heq, hlast, fingerprint]
  · intro hne hfit
    rw [hemit hne]
    exact codex_entry_push_suffix _ k₂ (rustTrim m₂) hfit

/-- Witness for C9's theorem at concrete inputs: emitting the
`(User, "hello")` item twice in immediate succession leaves the state of
the first emission untouched, while a following different `(Action, "ls")`
item is rendered at the log's tail. -/
theorem codex_log_entry_session_dedup_witness :
    emitDisplay (emitDisplay ⟨none, []⟩ DisplayKind.User (str "hello"))
        DisplayKind.User (str "hello") =
      emitDisplay ⟨none, []⟩ DisplayKind.User (str "hello") ∧
    ∃ q, (emitDisplay (emitDisplay ⟨none, []⟩ DisplayKind.User (str "hello"))
        DisplayKind.Action (str "ls")).codex_log =
      q ++ codex_entry_lines (labelOf DisplayKind.Action) (rustTrim (str "ls"))
        (logKindOf DisplayKind.Action) :=
  ⟨(codex_log_entry_session_dedup ⟨none, []⟩ DisplayKind.User DisplayKind.User
      (str "hello") (str "hello") (by decide) (by decide)).1 ⟨rfl, rfl⟩,
   (codex_log_entry_session_dedup ⟨none, []⟩ DisplayKind.User DisplayKind.Action
      (str "hello") (str "ls") (by decide) (by decide)).2.2 (by decide) (by decide)⟩

/-!
## Agent argv construction (src/codex/mod.rs, `codex_exec_argv`)

`codex_base_argv_with_os` resolves the executable from the filesystem and
environment; its result is taken as the `base` parameter here, and the
rest of `codex_exec_argv` is embedded verbatim.
-/

inductive CodexError where
  | EmptyPrompt
  | EmptyPackage
  | EmptyTool
  | EmptyPackages
  | EmptyScript
  | NodeMissing
  | NpmMissing
deriving DecidableEq

/-- Rust `str::starts_with(char)`. -/
def startsWithChar (s : Str) (c : Char) : Bool :=
  match s with
  | [] => false
  | x :: _ => x == c

/-- Rust `codex_exec_argv`, with the platform-resolved base argv as a
parameter. -/
def codex_exec_argv (base : List Str) (prompt : Str) (json_output : Bool)
    (extra_args : Option (List Str)) : Except CodexError (List Str) :=
  if (rustTrim prompt).isEmpty then Except.error CodexError.EmptyPrompt
  else
    let argv := base ++ [str "exec"]
    let argv := if json_output then argv ++ [str "--json"] else argv
    let argv :=
      match extra_args with
      | some extra => argv ++ extra.filter (fun arg => !(rustTrim arg).isEmpty)
      | none => argv
    let argv := if startsWithChar (rustTrimStart prompt) '-' then argv ++ [str "--"] else argv
    Except.ok (argv ++ [prompt])

/-- C10: for every non-empty prompt the returned argv ends with the
prompt, and the lone `--` separator is inserted immediately before the
prompt exactly when the prompt's leading-whitespace-trimmed form begins
with `-`; otherwise the argv is just base, `exec`, the optional
`--json`, the filtered extra arguments and the prompt, with no separator
added. -/
theorem codex_exec_argv_prompt_last_and_sep (base : List Str) (prompt : Str)
    (json_output : Bool) (extra_args : Option (List Str))
    (h : (rustTrim prompt).isEmpty = false) :
    ∃ argv, codex_exec_argv base prompt json_output extra_args = Except.ok argv ∧
      argv.getLast? = some prompt ∧
      argv = (base ++ [str "exec"] ++ (if json_output then [str "--json"] else []) ++
          (match extra_args with
           | some extra => extra.filter (fun arg => !(rustTrim arg).isEmpty)
           | none => [])) ++
        (if startsWithChar (rustTrimStart prompt) '-' then [str "--"] else []) ++ [prompt] := by
  have hres : codex_exec_argv base prompt json_output extra_args =
      Except.ok ((base ++ [str "exec"] ++ (if json_output then [str "--json"] else []) ++
          (match extra_args with
           | some extra => extra.filter (fun arg => !(rustTrim arg).isEmpty)
           | none => [])) ++
        (if startsWithChar (rustTrimStart prompt) '-' then [str "--"] else []) ++ [prompt]) := by
    simp only [codex_exec_argv, h, Bool.false_eq_true, if_false]
    cases json_output <;> cases extra_args <;>
      cases hd : startsWithChar (rustTrimStart prompt) '-' <;>
      simp [hd, List.append_assoc]
  exact ⟨_, hres, by rw [List.getLast?_append_cons]; rfl, rfl⟩

/-- Witness for C10's theorem at a concrete input: a prompt starting
with `-` gets the `--` separator immediately before it. -/
theorem codex_exec_argv_prompt_last_and_sep_witness :
    ∃ argv, codex_exec_argv [str "codex"] (str "--help") true none = Except.ok argv ∧
      argv.getLast? = some (str "--help") ∧
      argv = ([str "codex"] ++ [str "exec"] ++ (if true then [str "--json"] else []) ++
          (match (none : Option (List Str)) with
           | some extra => extra.filter (fun arg => !(rustTrim arg).isEmpty)
           | none => [])) ++
        (if startsWithChar (rustTrimStart (str "--help")) '-' then [str "--"] else []) ++
        [str "--help"] :=
  codex_exec_argv_prompt_last_and_sep [str "codex"] (str "--help") true none (by decide)

/-!
## Path resolution (src/codex/mod.rs, `find_in_path`), Unix specialisation

The claim is about the Unix platform, so `find_in_path` is embedded with
`is_windows = false`: the separator is `/`, `env::split_paths` splits on
`:`, and the extension list is the single empty extension (the `PATHEXT`
branch is Windows-only dead code there).  The filesystem is an oracle
`fs : Str → Bool` standing for `Path::exists`.
-/

/-- Rust `Path::join` for the shapes reachable here (the pushed file name
is a bare, non-empty, relative name). -/
def pathJoin (dir file : Str) : Str :=
  if dir.isEmpty then file
  else if dir.getLast? = some '/' then dir ++ file
  else dir ++ '/' :: file

/-- Rust `env::split_paths` on Unix: split on `:`. -/
def splitPaths (raw : Str) : List Str := splitOnChar ':' raw

/-- The inner `for ext in &extensions` loop of `find_in_path`. -/
def search_exts (dir : Str) (exts : List Str) (cmd : Str) (fs : Str → Bool) : Option Str :=
  match exts with
  | [] => none
  | ext :: rest =>
    let file_name := if ext.isEmpty then cmd else cmd ++ ext
    let candidate := pathJoin dir file_name
    if fs candidate then some candidate else search_exts dir rest cmd fs

/-- The outer `for dir in path_iter` loop of `find_in_path`. -/
def search_dirs (dirs exts : List Str) (cmd : Str) (fs : Str → Bool) : Option Str :=
  match dirs with
  | [] => none
  | dir :: rest =>
    match search_exts dir exts cmd fs with
    | some p => some p
    | none => search_dirs rest exts cmd fs

/-- Rust `find_in_path(cmd, path, is_windows = false)`. -/
def find_in_path (cmd : Str) (path : Option Str) (fs : Str → Bool) : Option Str :=
  let cmd := rustTrim cmd
  if cmd.isEmpty then none
  else if startsWithChar cmd '/' || containsChar cmd '/' then
    if fs cmd then some cmd else none
  else
    search_dirs (splitPaths (path.getD [])) [[]] cmd fs

/-- Defined from the spec's words for C7: the join of the first
directory, in search-path order, whose joined path exists; none when no
directory yields an existing path. -/
def locate_first_existing (dirs : List Str) (name : Str) (fs : Str → Bool) : Option Str :=
  match dirs.find? (fun dir => fs (pathJoin dir name)) with
  | some dir => some (pathJoin dir name)
  | none => none

theorem startsWithChar_slash_contains (s : Str) (h : startsWithChar s '/' = true) :
    containsChar s '/' = true := by
  cases s with
  | nil => simp [startsWithChar] at h
  | cons c t =>
    simp [startsWithChar] at h
    simp [containsChar, h]

theorem search_dirs_eq_locate (dirs : List Str) (cmd : Str) (fs : Str → Bool) :
    search_dirs dirs [[]] cmd fs = locate_first_existing dirs cmd fs := by
  induction dirs with
  | nil => rfl
  | cons dir rest ih =>
    by_cases hfs : fs (pathJoin dir cmd)
    · simp [search_dirs, search_exts, locate_first_existing, List.find?_cons_of_pos, hfs]
    · simp only [search_dirs, search_exts, List.isEmpty_nil, if_pos rfl]
      rw [if_neg (by simp [hfs])]
      rw [ih, locate_first_existing, locate_first_existing,
        List.find?_cons_of_neg _ (by simp [hfs])]

/-- C7: on Unix, locating a bare command name (no path separator) scans
the search path in order and returns the join of the first directory
whose joined path exists (none when none exists); a name that is
absolute or contains a separator is checked for existence directly,
without scanning the search path. -/
theorem find_in_path_unix_spec (cmd sp : Str) (fs : Str → Bool) :
    ((rustTrim cmd).isEmpty = false → containsChar (rustTrim cmd) '/' = false →
      find_in_path cmd (some sp) fs =
        locate_first_existing (splitPaths sp) (rustTrim cmd) fs) ∧
    (containsChar (rustTrim cmd) '/' = true →
      find_in_path cmd (some sp) fs =
        (if fs (rustTrim cmd) then some (rustTrim cmd) else none)) := by
  constructor
  · intro hne hsep
    have hsw : startsWithChar (rustTrim cmd) '/' = false := by
      cases h : startsWithChar (rustTrim cmd) '/'
      · rfl
      · exact absurd (startsWithChar_slash_contains _ h) (by simp [hsep])
    simp only [find_in_path, hne, hsw, hsep, Bool.false_eq_true, if_false,
      Bool.or_false, Option.getD_some]
    exact search_dirs_eq_locate _ _ fs
  · intro hsep
    have hne : (rustTrim cmd).isEmpty = false := by
      cases h : rustTrim cmd with
      | nil => rw [h] at hsep; simp [containsChar] at hsep
      | cons c t => rfl
    simp only [find_in_path, hne, hsep, Bool.false_eq_true, if_false, Bool.or_true, if_true]

/-- Witness for C7's theorem at a concrete input: with only `/b/tool`
existing, `find_in_path "tool" "/a:/b"` resolves through the search path
to the spec-side first existing join. -/
theorem find_in_path_unix_spec_witness :
    find_in_path (str "tool") (some (str "/a:/b")) (fun p => p == str "/b/tool") =
      locate_first_existing (splitPaths (str "/a:/b")) (rustTrim (str "tool"))
        (fun p => p == str "/b/tool") :=
  (find_in_path_unix_spec (str "tool") (str "/a:/b") (fun p => p == str "/b/tool")).1
    (by decide) (by decide)

/-!
## Line-streaming process engine (src/process/mod.rs, `stream_subprocess`)

The engine spawns an orchestration thread which (a) on spawn failure
sends one synthetic `Exit` event with no return code, or (b) on success
lets two reader threads send `Line` events (one per line of stdout resp.
stderr, trailing `\n`/`\r` stripped) into the shared mpsc channel, then
waits for the child, joins both readers, and only then sends the single
`Exit` event.  The channel delivers events in send order, the two
readers interleave arbitrarily, and the `Exit` send happens after both
readers finished; the observable event sequence of a handle is therefore
an arbitrary interleaving of the two line sequences followed by exactly
one `Exit`.  `Merge` is the interleaving relation and `StreamResult`
relates `(argv, OS outcome)` to the observable result.
-/

inductive ProcEventKind where
  | Line
  | Exit
deriving DecidableEq

structure ProcEvent where
  kind : ProcEventKind
  text : Str
  returncode : Option Int
deriving DecidableEq

inductive ProcessError where
  | EmptyArgv
  | Spawn (cause : Str)
deriving DecidableEq

/-- `line.trim_end_matches(['\n', '\r'])` in the reader loop. -/
def trimEndNlCr (s : Str) : Str :=
  (s.reverse.dropWhile (fun c => c == '\n' || c == '\r')).reverse

/-- The `Line` event a reader sends for one raw line. -/
def lineEvent (raw : Str) : ProcEvent := ⟨ProcEventKind.Line, trimEndNlCr raw, none⟩

/-- The final `Exit` event, carrying the child's return code. -/
def exitEvent (code : Option Int) : ProcEvent :=
  ⟨ProcEventKind.Exit, str "exit " ++ intToStr (code.getD (-1)), code⟩

/-- The synthetic `Exit` event sent when `cmd.spawn()` fails. -/
def spawnFailEvent (err : Str) : ProcEvent :=
  ⟨ProcEventKind.Exit, str "exit -1 (" ++ err ++ str ")", none⟩

/-- What the OS does with the spawn request: refuse it, or run the child
producing the given stdout/stderr line lists and return code (`None`
when killed by a signal). -/
inductive SpawnOutcome where
  | fail (err : Str)
  | ok (stdoutLines stderrLines : List Str) (code : Option Int)

/-- `Merge xs ys zs`: `zs` is an order-preserving interleaving of `xs`
and `ys` (the two readers racing into one channel). -/
inductive Merge : List ProcEvent → List ProcEvent → List ProcEvent → Prop where
  | nil : Merge [] [] []
  | left {x : ProcEvent} {xs ys zs : List ProcEvent} :
      Merge xs ys zs → Merge (x :: xs) ys (x :: zs)
  | right {y : ProcEvent} {xs ys zs : List ProcEvent} :
      Merge xs ys zs → Merge xs (y :: ys) (y :: zs)

/-- `StreamResult argv outcome res`: `stream_subprocess(argv)` can
produce `res`, where `res` is either the synchronous error or the event
sequence observable on the handle's channel.  An empty argv errors
before the OS is consulted (the result does not depend on `outcome`). -/
inductive StreamResult :
    List Str → SpawnOutcome → Except ProcessError (List ProcEvent) → Prop where
  | empty (outcome : SpawnOutcome) :
      StreamResult [] outcome (Except.error ProcessError.EmptyArgv)
  | spawnFail (a : Str) (args : List Str) (err : Str) :
      StreamResult (a :: args) (SpawnOutcome.fail err) (Except.ok [spawnFailEvent err])
  | spawnOk (a : Str) (args : List Str) (outs errs : List Str) (code : Option Int)
      (merged : List ProcEvent)
      (h : Merge (outs.map lineEvent) (errs.map lineEvent) merged) :
      StreamResult (a :: args) (SpawnOutcome.ok outs errs code)
        (Except.ok (merged ++ [exitEvent code]))

theorem merge_mem {xs ys zs : List ProcEvent} (h : Merge xs ys zs) :
    ∀ z ∈ zs, z ∈ xs ∨ z ∈ ys := by
  induction h with
  | nil => intro z hz; simp at hz
  | left h ih =>
    intro z hz
    rcases List.mem_cons.mp hz with rfl | hz'
    · exact Or.inl (List.mem_cons_self _ _)
    · rcases ih z hz' with hx | hy
      · exact Or.inl (List.mem_cons_of_mem _ hx)
      · exact Or.inr hy
  | right h ih =>
    intro z hz
    rcases List.mem_cons.mp hz with rfl | hz'
    · exact Or.inr (List.mem_cons_self _ _)
    · rcases ih z hz' with hx | hy
      · exact Or.inl hx
      · exact Or.inr (List.mem_cons_of_mem _ hy)

theorem merged_all_line {outs errs : List Str} {merged : List ProcEvent}
    (h : Merge (outs.map lineEvent) (errs.map lineEvent) merged) :
    ∀ e ∈ merged, e.kind = ProcEventKind.Line := by
  intro e he
  rcases merge_mem h e he with hx | hx <;>
    · obtain ⟨raw, -, hw⟩ := List.mem_map.mp hx
      rw [← hw]
      rfl

/-- C4: for every non-empty argv on which `stream_subprocess` succeeds,
the handle's event stream contains exactly one `Exit` event, and every
`Line` event is observed strictly before it: the stream is a prefix of
`Line`-kind events followed by a final `Exit`-kind event. -/
theorem stream_subprocess_single_exit_after_lines (argv : List Str)
    (outcome : SpawnOutcome) (tr : List ProcEvent) (hne : argv ≠ [])
    (h : StreamResult argv outcome (Except.ok tr)) :
    (tr.filter (fun e => e.kind == ProcEventKind.Exit)).length = 1 ∧
    ∃ pre fin, tr = pre ++ [fin] ∧ fin.kind = ProcEventKind.Exit ∧
      ∀ e ∈ pre, e.kind = ProcEventKind.Line := by
  cases h with
  | spawnFail a args err =>
    refine ⟨by simp [spawnFailEvent], [], spawnFailEvent err, by simp, rfl, by simp⟩
  | spawnOk a args outs errs code merged hm =>
    have hline := merged_all_line hm
    constructor
    · rw [List.filter_append]
      have h1 : merged.filter (fun e => e.kind == ProcEventKind.Exit) = [] := by
        rw [List.filter_eq_nil_iff]
        intro e he
        simp [hline e he]
      rw [h1]
      simp [exitEvent]
    · exact ⟨merged, exitEvent code, rfl, rfl, hline⟩

/-- Witness for C4's theorem at a concrete input: a successful run with
no output lines and exit code 0. -/
theorem stream_subprocess_single_exit_witness :
    (([exitEvent (some 0)].filter (fun e => e.kind == ProcEventKind.Exit)).length = 1) ∧
    ∃ pre fin, [exitEvent (some 0)] = pre ++ [fin] ∧ fin.kind = ProcEventKind.Exit ∧
      ∀ e ∈ pre, e.kind = ProcEventKind.Line :=
  stream_subprocess_single_exit_after_lines [str "true"] (SpawnOutcome.ok [] [] (some 0))
    [exitEvent (some 0)] (by simp)
    (StreamResult.spawnOk (str "true") [] [] [] (some 0) [] Merge.nil)

/-- C5: an empty argv yields the `EmptyArgv` error synchronously,
independently of the OS (checked before any process is created), and a
failed spawn of a non-empty argv yields no synchronous error: the handle
carries exactly one synthetic `Exit` event whose return code is `none`. -/
theorem stream_subprocess_error_paths :
    (∀ (outcome : SpawnOutcome) (res : Except ProcessError (List ProcEvent)),
      StreamResult [] outcome res → res = Except.error ProcessError.EmptyArgv) ∧
    (∀ (a : Str) (args : List Str) (err : Str) (res : Except ProcessError (List ProcEvent)),
      StreamResult (a :: args) (SpawnOutcome.fail err) res →
        res = Except.ok [spawnFailEvent err] ∧
        (spawnFailEvent err).kind = ProcEventKind.Exit ∧
        (spawnFailEvent err).returncode = none) := by
  constructor
  · intro outcome res h
    cases h
    rfl
  · intro a args err res h
    cases h
    exact ⟨rfl, rfl, rfl⟩

/-- Witness for C5's theorem at concrete inputs: the empty argv against
an arbitrary OS outcome, and a spawn failure of `["codex"]`. -/
theorem stream_subprocess_error_paths_witness :
    (Except.error ProcessError.EmptyArgv : Except ProcessError (List ProcEvent)) =
      Except.error ProcessError.EmptyArgv ∧
    ((Except.ok [spawnFailEvent (str "No such file or directory")] :
        Except ProcessError (List ProcEvent)) =
      Except.ok [spawnFailEvent (str "No such file or directory")] ∧
      (spawnFailEvent (str "No such file or directory")).kind = ProcEventKind.Exit ∧
      (spawnFailEvent (str "No such file or directory")).returncode = none) :=
  ⟨stream_subprocess_error_paths.1 (SpawnOutcome.fail (str "x")) _
      (StreamResult.empty (SpawnOutcome.fail (str "x"))),
   stream_subprocess_error_paths.2 (str "codex") [] (str "No such file or directory") _
      (StreamResult.spawnFail (str "codex") [] (str "No such file or directory"))⟩
